import Mathlib

/-!
Shallow embedding of the transform and point modules of the cgmath
repository (src/cgmath/transform.rs and src/math/point.rs).

The transform module is generic over a scalar S, a vector V, a point P
and a rotation R.  Here the scalar is embedded as the rational numbers
(exact field arithmetic standing for the floating scalar), the 3-vector
and 3-point types are concrete records of rationals, and the rotation is
kept generic: a type R together with a bundle of operations
(rotate_vec, concat, invert, to_mat3), mirroring the Rotation trait that
the Rust code consumes as a capability.

The vector / matrix / quaternion arithmetic lives outside src/ in the
repository; those operations are modelled from the spec where needed and
are marked as such in their doc comments.
-/

namespace cgmath

/-- Modelled from the spec: 3-component vector of scalars (vector.rs is
not under src/; the spec describes Vec3 as a displacement with
component-wise arithmetic). -/
structure Vec3 where
  x : ℚ
  y : ℚ
  z : ℚ
deriving DecidableEq, Repr

/-- Modelled from the spec: 4-component vector of scalars. -/
structure Vec4 where
  x : ℚ
  y : ℚ
  z : ℚ
  w : ℚ
deriving DecidableEq, Repr

/-- 3-dimensional coordinate point (point type consumed by transform.rs). -/
structure Point3 where
  x : ℚ
  y : ℚ
  z : ℚ
deriving DecidableEq, Repr

/-- Modelled from the spec: column-major 3x3 matrix (matrix.rs is not
under src/); fields x, y, z are the columns, as in the source layout. -/
structure Mat3 where
  x : Vec3
  y : Vec3
  z : Vec3
deriving DecidableEq, Repr

/-- Modelled from the spec: column-major 4x4 homogeneous matrix; the w
field is the fourth (translation) column. -/
structure Mat4 where
  x : Vec4
  y : Vec4
  z : Vec4
  w : Vec4
deriving DecidableEq, Repr

/-- Modelled from the spec: scalar multiplication of a vector. -/
def Vec3.mul_s (v : Vec3) (s : ℚ) : Vec3 :=
  ⟨v.x * s, v.y * s, v.z * s⟩

/-- Modelled from the spec: component-wise vector addition. -/
def Vec3.add_v (a b : Vec3) : Vec3 :=
  ⟨a.x + b.x, a.y + b.y, a.z + b.z⟩

/-- The zero vector. -/
def Vec3.zero : Vec3 := ⟨0, 0, 0⟩

/-- Modelled from the spec: homogeneous extension, appending a trailing
component (1 for points, 0 for vectors). -/
def Vec3.extend (v : Vec3) (c : ℚ) : Vec4 :=
  ⟨v.x, v.y, v.z, c⟩

/-- Modelled from the spec: drop the trailing homogeneous component. -/
def Vec4.truncate (v : Vec4) : Vec3 :=
  ⟨v.x, v.y, v.z⟩

/-- Modelled from the spec: scalar multiplication of a 4-vector. -/
def Vec4.mul_s (v : Vec4) (s : ℚ) : Vec4 :=
  ⟨v.x * s, v.y * s, v.z * s, v.w * s⟩

/-- Modelled from the spec: component-wise addition of 4-vectors. -/
def Vec4.add_v (a b : Vec4) : Vec4 :=
  ⟨a.x + b.x, a.y + b.y, a.z + b.z, a.w + b.w⟩

/-- Reinterpret a vector as a point (Point::from_vec). -/
def Point3.from_vec (v : Vec3) : Point3 := ⟨v.x, v.y, v.z⟩

/-- Reinterpret a point as a vector (Point::to_vec). -/
def Point3.to_vec (p : Point3) : Vec3 := ⟨p.x, p.y, p.z⟩

/-- Modelled from the spec: scaling a point scales each coordinate
(distance from the origin) by the scalar. -/
def Point3.mul_s (p : Point3) (s : ℚ) : Point3 :=
  ⟨p.x * s, p.y * s, p.z * s⟩

/-- Displacing a point by a vector, component-wise. -/
def Point3.add_v (p : Point3) (v : Vec3) : Point3 :=
  ⟨p.x + v.x, p.y + v.y, p.z + v.z⟩

/-- Homogeneous form of a point: append a trailing 1. -/
def Point3.to_homogeneous (p : Point3) : Vec4 :=
  p.to_vec.extend 1

/-- Modelled from the spec: back from homogeneous coordinates, the
generic homogeneous divide by the trailing component. -/
def Point3.from_homogeneous (v : Vec4) : Point3 :=
  let e := v.truncate.mul_s (1 / v.w)
  ⟨e.x, e.y, e.z⟩

/-- Modelled from the spec: matrix-vector product of a column-major 3x3
matrix (linear combination of the columns). -/
def Mat3.mul_v (m : Mat3) (v : Vec3) : Vec3 :=
  ((m.x.mul_s v.x).add_v (m.y.mul_s v.y)).add_v (m.z.mul_s v.z)

/-- Modelled from the spec: scale every entry of a 3x3 matrix. -/
def Mat3.mul_s (m : Mat3) (s : ℚ) : Mat3 :=
  ⟨m.x.mul_s s, m.y.mul_s s, m.z.mul_s s⟩

/-- Modelled from the spec: extend a 3x3 matrix to a 4x4 homogeneous
matrix, with fourth row and column (0,0,0,1). -/
def Mat3.to_mat4 (m : Mat3) : Mat4 :=
  ⟨m.x.extend 0, m.y.extend 0, m.z.extend 0, ⟨0, 0, 0, 1⟩⟩

/-- Modelled from the spec: matrix-vector product of a column-major 4x4
matrix. -/
def Mat4.mul_v (m : Mat4) (v : Vec4) : Vec4 :=
  (((m.x.mul_s v.x).add_v (m.y.mul_s v.y)).add_v (m.z.mul_s v.z)).add_v (m.w.mul_s v.w)

/-- Modelled from the spec: matrix-matrix product, column by column. -/
def Mat4.mul_m (a b : Mat4) : Mat4 :=
  ⟨a.mul_v b.x, a.mul_v b.y, a.mul_v b.z, a.mul_v b.w⟩

/-- The 4x4 identity matrix. -/
def Mat4.identity : Mat4 :=
  ⟨⟨1, 0, 0, 0⟩, ⟨0, 1, 0, 0⟩, ⟨0, 0, 1, 0⟩, ⟨0, 0, 0, 1⟩⟩

/-- Modelled from the spec: homogeneous translation matrix, identity
with the translation column (x, y, z, 1). -/
def Mat4.translate (x y z : ℚ) : Mat4 :=
  ⟨⟨1, 0, 0, 0⟩, ⟨0, 1, 0, 0⟩, ⟨0, 0, 1, 0⟩, ⟨x, y, z, 1⟩⟩

/-- Modelled from the spec: homogeneous (per-axis) scale matrix,
diagonal (x, y, z, 1). -/
def Mat4.scale (x y z : ℚ) : Mat4 :=
  ⟨⟨x, 0, 0, 0⟩, ⟨0, y, 0, 0⟩, ⟨0, 0, z, 0⟩, ⟨0, 0, 0, 1⟩⟩

/-- Modelled from the spec: the approximate-equality tolerance used by
the ApproxEq capability (approx.rs is not under src/). -/
def approx_epsilon : ℚ := 1 / 1000000

/-- Modelled from the spec: approximate equality of scalars within
epsilon. -/
def approx_eq (a b : ℚ) : Bool :=
  decide (|a - b| < approx_epsilon)

/-- Component-wise approximate equality of points. -/
def Point3.approx_eq (p q : Point3) : Bool :=
  cgmath.approx_eq p.x q.x && cgmath.approx_eq p.y q.y && cgmath.approx_eq p.z q.z

/-- Modelled from the spec: the Rotation capability consumed by the
transform module — rotate a vector about the origin, concatenate,
invert, and convert to a 3x3 matrix (rotation.rs is not under src/). -/
structure RotationOps (R : Type) where
  rotate_vec : R → Vec3 → Vec3
  concat : R → R → R
  invert : R → R
  to_mat3 : R → Mat3

/-- Modelled from the spec: rotating a point rotates its coordinate
vector about the origin. -/
def RotationOps.rotate_point {R : Type} (ops : RotationOps R) (r : R) (p : Point3) : Point3 :=
  Point3.from_vec (ops.rotate_vec r p.to_vec)

/-- A transformation of scale, rotation and displacement (Decomposed). -/
structure Decomposed (R : Type) where
  scale : ℚ
  rot : R
  disp : Vec3
deriving DecidableEq, Repr

/-- Decomposed::transform_vec: rotate the scaled vector. -/
def Decomposed.transform_vec {R : Type} (ops : RotationOps R) (t : Decomposed R) (v : Vec3) : Vec3 :=
  ops.rotate_vec t.rot (v.mul_s t.scale)

/-- Decomposed::transform_point: rotate the scaled point, then add the
displacement. -/
def Decomposed.transform_point {R : Type} (ops : RotationOps R) (t : Decomposed R) (p : Point3) : Point3 :=
  (ops.rotate_point t.rot (p.mul_s t.scale)).add_v t.disp

/-- Transform::transform_as_point (trait default method): view the
vector as a point, transform it, view the result as a vector. -/
def Decomposed.transform_as_point {R : Type} (ops : RotationOps R) (t : Decomposed R) (v : Vec3) : Vec3 :=
  (t.transform_point ops (Point3.from_vec v)).to_vec

/-- Decomposed::concat. -/
def Decomposed.concat {R : Type} (ops : RotationOps R) (t other : Decomposed R) : Decomposed R :=
  { scale := t.scale * other.scale
    rot := ops.concat t.rot other.rot
    disp := t.transform_as_point ops other.disp }

/-- Decomposed::invert. -/
def Decomposed.invert {R : Type} (ops : RotationOps R) (t : Decomposed R) : Option (Decomposed R) :=
  if approx_eq t.scale 0 then
    none
  else
    let s := 1 / t.scale
    let r := ops.invert t.rot
    let d := (ops.rotate_vec r t.disp).mul_s (-s)
    some { scale := s, rot := r, disp := d }

/-- ToMat4 for Decomposed: scale the rotation's 3x3 matrix, extend to
4x4, overwrite the w column with (disp, 1). -/
def Decomposed.to_mat4 {R : Type} (ops : RotationOps R) (t : Decomposed R) : Mat4 :=
  let m := ((ops.to_mat3 t.rot).mul_s t.scale).to_mat4
  { m with w := t.disp.extend 1 }

/-- A homogeneous transformation matrix (AffineMatrix3). -/
structure AffineMatrix3 where
  mat : Mat4
deriving DecidableEq, Repr

/-- AffineMatrix3::transform_vec: extend with a trailing 0, multiply,
truncate. -/
def AffineMatrix3.transform_vec (a : AffineMatrix3) (v : Vec3) : Vec3 :=
  (a.mat.mul_v (v.extend 0)).truncate

/-- AffineMatrix3::transform_point: extend with a trailing 1, multiply,
divide back from homogeneous. -/
def AffineMatrix3.transform_point (a : AffineMatrix3) (p : Point3) : Point3 :=
  Point3.from_homogeneous (a.mat.mul_v p.to_homogeneous)

/-- Transform::concat_self (trait default method): replace the value
with the concatenation; here mutation becomes returning the new value. -/
def concat_self {α : Type} (concat : α → α → α) (t other : α) : α :=
  concat t other

/-- Transform::invert_self (trait default method): on success replace
the value and report true, on failure keep the value and report false;
here mutation becomes returning the flag with the new value. -/
def invert_self {α : Type} (invert : α → Option α) (t : α) : Bool × α :=
  match invert t with
  | some u => (true, u)
  | none => (false, t)

/-- Transform3D: a newtype around a Decomposed transform; get returns
the wrapped value. -/
structure Transform3D (R : Type) where
  get : Decomposed R
deriving DecidableEq, Repr

/-- Builder intermediate: the accumulated matrix plus the (read-only)
source Decomposed value shared across the chain. -/
structure Transform3DIntermediate (R : Type) where
  mat : Mat4
  decomposed : Decomposed R
deriving DecidableEq, Repr

/-- Transform3D::translate: start a chain with the translation matrix
of the source displacement. -/
def Transform3D.translate {R : Type} (t : Transform3D R) : Transform3DIntermediate R :=
  { mat := Mat4.translate t.get.disp.x t.get.disp.y t.get.disp.z
    decomposed := t.get }

/-- Transform3D::scale: start a chain with the uniform scale matrix of
the source scale. -/
def Transform3D.scale {R : Type} (t : Transform3D R) : Transform3DIntermediate R :=
  { mat := Mat4.scale t.get.scale t.get.scale t.get.scale
    decomposed := t.get }

/-- Transform3D::rotate: start a chain with the rotation's matrix
extended to 4x4. -/
def Transform3D.rotate {R : Type} (ops : RotationOps R) (t : Transform3D R) : Transform3DIntermediate R :=
  { mat := (ops.to_mat3 t.get.rot).to_mat4
    decomposed := t.get }

/-- Transform3DIntermediate::translate: the new accumulated matrix is
the translation matrix times the previous one. -/
def Transform3DIntermediate.translate {R : Type} (i : Transform3DIntermediate R) : Transform3DIntermediate R :=
  { mat := (Mat4.translate i.decomposed.disp.x i.decomposed.disp.y i.decomposed.disp.z).mul_m i.mat
    decomposed := i.decomposed }

/-- Transform3DIntermediate::scale: the new accumulated matrix is the
scale matrix times the previous one. -/
def Transform3DIntermediate.scale {R : Type} (i : Transform3DIntermediate R) : Transform3DIntermediate R :=
  { mat := (Mat4.scale i.decomposed.scale i.decomposed.scale i.decomposed.scale).mul_m i.mat
    decomposed := i.decomposed }

/-- Transform3DIntermediate::rotate: the new accumulated matrix is the
rotation matrix times the previous one. -/
def Transform3DIntermediate.rotate {R : Type} (ops : RotationOps R) (i : Transform3DIntermediate R) : Transform3DIntermediate R :=
  { mat := ((ops.to_mat3 i.decomposed.rot).to_mat4).mul_m i.mat
    decomposed := i.decomposed }

/-- ToMat4 for the builder intermediate: extract the accumulated
matrix. -/
def Transform3DIntermediate.to_mat4 {R : Type} (i : Transform3DIntermediate R) : Mat4 :=
  i.mat

/-- ToStr for Decomposed, with the scalar, rotation and vector
formatters of the consumed ToStr capabilities passed explicitly: the
format string is "(scale({}), rot({:s}), disp{:s})". -/
def Decomposed.to_str {R : Type} (fmtS : ℚ → String) (fmtR : R → String) (fmtV : Vec3 → String) (t : Decomposed R) : String :=
  "(scale(" ++ fmtS t.scale ++ "), rot(" ++ fmtR t.rot ++ "), disp" ++ fmtV t.disp ++ ")"

end cgmath

namespace math

/-!
Embedding of src/math/point.rs.  The source is generic over a scalar T
bounded by Num / Float trait capabilities; here those capabilities are a
bundle of arithmetic operations passed explicitly, and operations that
use the extra Float capabilities (sqrt, cos, sin) take them as explicit
function arguments.
-/

/-- The Num capability of the scalar type T consumed by the point
module. -/
structure NumOps (T : Type) where
  add : T → T → T
  sub : T → T → T
  mul : T → T → T
  div : T → T → T
  zero : T
  one : T

/-- A two-dimensional displacement vector. -/
structure Vec2 (T : Type) where
  x : T
  y : T

/-- A two-dimensional coordinate point. -/
structure Point2 (T : Type) where
  x : T
  y : T

/-- A three-dimensional displacement vector. -/
structure Vec3 (T : Type) where
  x : T
  y : T
  z : T

/-- A three-dimensional coordinate point. -/
structure Point3 (T : Type) where
  x : T
  y : T
  z : T

/-- A 2D ray: origin point and direction vector. -/
structure Ray2 (T : Type) where
  origin : Point2 T
  direction : Vec2 T

/-- A 3D ray: origin point and direction vector. -/
structure Ray3 (T : Type) where
  origin : Point3 T
  direction : Vec3 T

/-- Point2::origin: the coordinate [0, 0]. -/
def Point2.origin {T : Type} (n : NumOps T) : Point2 T :=
  ⟨n.zero, n.zero⟩

/-- Point3::origin: the coordinate [0, 0, 0]. -/
def Point3.origin {T : Type} (n : NumOps T) : Point3 T :=
  ⟨n.zero, n.zero, n.zero⟩

/-- Sub for Point2: the displacement vector from other to self's
argument, component-wise. -/
def Point2.sub {T : Type} (n : NumOps T) (p other : Point2 T) : Vec2 T :=
  ⟨n.sub p.x other.x, n.sub p.y other.y⟩

/-- Sub for Point3. -/
def Point3.sub {T : Type} (n : NumOps T) (p other : Point3 T) : Vec3 T :=
  ⟨n.sub p.x other.x, n.sub p.y other.y, n.sub p.z other.z⟩

/-- Modelled from the spec: scalar multiplication of a 2-vector
(vector.rs is not under src/). -/
def Vec2.mul_s {T : Type} (n : NumOps T) (v : Vec2 T) (s : T) : Vec2 T :=
  ⟨n.mul v.x s, n.mul v.y s⟩

/-- Modelled from the spec: scalar multiplication of a 3-vector. -/
def Vec3.mul_s {T : Type} (n : NumOps T) (v : Vec3 T) (s : T) : Vec3 T :=
  ⟨n.mul v.x s, n.mul v.y s, n.mul v.z s⟩

/-- Modelled from the spec: squared magnitude of a 2-vector, the dot
product with itself. -/
def Vec2.magnitude2 {T : Type} (n : NumOps T) (v : Vec2 T) : T :=
  n.add (n.mul v.x v.x) (n.mul v.y v.y)

/-- Modelled from the spec: squared magnitude of a 3-vector. -/
def Vec3.magnitude2 {T : Type} (n : NumOps T) (v : Vec3 T) : T :=
  n.add (n.add (n.mul v.x v.x) (n.mul v.y v.y)) (n.mul v.z v.z)

/-- Modelled from the spec: magnitude, the square root of the squared
magnitude; the scalar's sqrt capability is passed explicitly. -/
def Vec2.magnitude {T : Type} (n : NumOps T) (sqrt : T → T) (v : Vec2 T) : T :=
  sqrt (v.magnitude2 n)

/-- Modelled from the spec: magnitude of a 3-vector. -/
def Vec3.magnitude {T : Type} (n : NumOps T) (sqrt : T → T) (v : Vec3 T) : T :=
  sqrt (v.magnitude2 n)

/-- Modelled from the spec: normalization, scaling by the reciprocal of
the magnitude; the zero vector is not special-cased. -/
def Vec2.normalize {T : Type} (n : NumOps T) (sqrt : T → T) (v : Vec2 T) : Vec2 T :=
  v.mul_s n (n.div n.one (v.magnitude n sqrt))

/-- Modelled from the spec: normalization of a 3-vector. -/
def Vec3.normalize {T : Type} (n : NumOps T) (sqrt : T → T) (v : Vec3 T) : Vec3 T :=
  v.mul_s n (n.div n.one (v.magnitude n sqrt))

/-- Point2::direction: the normalized displacement (other - self). -/
def Point2.direction {T : Type} (n : NumOps T) (sqrt : T → T) (p other : Point2 T) : Vec2 T :=
  (other.sub n p).normalize n sqrt

/-- Point3::direction. -/
def Point3.direction {T : Type} (n : NumOps T) (sqrt : T → T) (p other : Point3 T) : Vec3 T :=
  (other.sub n p).normalize n sqrt

/-- Point2::ray_to: a normalized ray from self towards other. -/
def Point2.ray_to {T : Type} (n : NumOps T) (sqrt : T → T) (p other : Point2 T) : Ray2 T :=
  ⟨p, p.direction n sqrt other⟩

/-- Point3::ray_to. -/
def Point3.ray_to {T : Type} (n : NumOps T) (sqrt : T → T) (p other : Point3 T) : Ray3 T :=
  ⟨p, p.direction n sqrt other⟩

/-- Point2::rotate_z: built from cos of the x coordinate and sin of the
y coordinate, each multiplied by the angle; the scalar's cos and sin
capabilities are passed explicitly. -/
def Point2.rotate_z {T : Type} (n : NumOps T) (cosf sinf : T → T) (p : Point2 T) (radians : T) : Point2 T :=
  ⟨n.mul (cosf p.x) radians, n.mul (sinf p.y) radians⟩

/-- ToStr for Point2, with the scalar formatter passed explicitly:
the format string is "[%?, %?]". -/
def Point2.to_str {T : Type} (fmtT : T → String) (p : Point2 T) : String :=
  "[" ++ fmtT p.x ++ ", " ++ fmtT p.y ++ "]"

/-- ToStr for Point3: the format string is "[%?, %?, %?]". -/
def Point3.to_str {T : Type} (fmtT : T → String) (p : Point3 T) : String :=
  "[" ++ fmtT p.x ++ ", " ++ fmtT p.y ++ ", " ++ fmtT p.z ++ "]"

/-- Modelled from the spec: a floating scalar with the special values
the spec's error model names (infinities and NaN propagating through
ordinary arithmetic); finite values are exact rationals. -/
inductive FP where
  | num : ℚ → FP
  | inf : FP
  | neginf : FP
  | nan : FP
deriving DecidableEq, Repr

/-- Modelled from the spec: floating addition with special-value
propagation. -/
def FP.add : FP → FP → FP
  | .nan, _ => .nan
  | _, .nan => .nan
  | .num a, .num b => .num (a + b)
  | .num _, .inf => .inf
  | .inf, .num _ => .inf
  | .num _, .neginf => .neginf
  | .neginf, .num _ => .neginf
  | .inf, .inf => .inf
  | .neginf, .neginf => .neginf
  | .inf, .neginf => .nan
  | .neginf, .inf => .nan

/-- Modelled from the spec: floating subtraction with special-value
propagation. -/
def FP.sub : FP → FP → FP
  | .nan, _ => .nan
  | _, .nan => .nan
  | .num a, .num b => .num (a - b)
  | .num _, .inf => .neginf
  | .inf, .num _ => .inf
  | .num _, .neginf => .inf
  | .neginf, .num _ => .neginf
  | .inf, .inf => .nan
  | .neginf, .neginf => .nan
  | .inf, .neginf => .inf
  | .neginf, .inf => .neginf

/-- Modelled from the spec: floating multiplication; zero times an
infinity is NaN. -/
def FP.mul : FP → FP → FP
  | .nan, _ => .nan
  | _, .nan => .nan
  | .num a, .num b => .num (a * b)
  | .num a, .inf => if 0 < a then .inf else if a < 0 then .neginf else .nan
  | .inf, .num a => if 0 < a then .inf else if a < 0 then .neginf else .nan
  | .num a, .neginf => if 0 < a then .neginf else if a < 0 then .inf else .nan
  | .neginf, .num a => if 0 < a then .neginf else if a < 0 then .inf else .nan
  | .inf, .inf => .inf
  | .inf, .neginf => .neginf
  | .neginf, .inf => .neginf
  | .neginf, .neginf => .inf

/-- Modelled from the spec: floating division; a nonzero finite value
divided by (positive) zero is an infinity, zero by zero is NaN. -/
def FP.div : FP → FP → FP
  | .nan, _ => .nan
  | _, .nan => .nan
  | .num a, .num b =>
      if b = 0 then
        if a = 0 then .nan else if 0 < a then .inf else .neginf
      else .num (a / b)
  | .num _, .inf => .num 0
  | .num _, .neginf => .num 0
  | .inf, .num b => if b < 0 then .neginf else .inf
  | .neginf, .num b => if b < 0 then .inf else .neginf
  | .inf, .inf => .nan
  | .inf, .neginf => .nan
  | .neginf, .inf => .nan
  | .neginf, .neginf => .nan

/-- The Num capability of the FP scalar. -/
def FPnum : NumOps FP :=
  { add := FP.add, sub := FP.sub, mul := FP.mul, div := FP.div
    zero := FP.num 0, one := FP.num 1 }

/-- The Num capability of the exact rational scalar. -/
def ratNum : NumOps ℚ :=
  { add := (· + ·), sub := (· - ·), mul := (· * ·), div := (· / ·)
    zero := 0, one := 1 }

end math

namespace cgmath

/-- A concrete rotation type for instantiating the generic transform:
false is the identity, true is the half-turn about the z axis. -/
def rotZ2Rot (b : Bool) (v : Vec3) : Vec3 :=
  if b then ⟨-v.x, -v.y, v.z⟩ else v

/-- The 3x3 matrix of a rotZ2 rotation. -/
def rotZ2Mat (b : Bool) : Mat3 :=
  if b then ⟨⟨-1, 0, 0⟩, ⟨0, -1, 0⟩, ⟨0, 0, 1⟩⟩
  else ⟨⟨1, 0, 0⟩, ⟨0, 1, 0⟩, ⟨0, 0, 1⟩⟩

/-- The Rotation capability of the rotZ2 rotations: composition is xor,
each rotation is its own inverse. -/
def rotZ2 : RotationOps Bool :=
  { rotate_vec := rotZ2Rot
    concat := xor
    invert := id
    to_mat3 := rotZ2Mat }

/-! Basic algebraic facts about the embedded vector operations and the
rotZ2 rotation capability, shared by the claim proofs and witnesses. -/

lemma Vec3.mul_s_mul_s (v : Vec3) (a b : ℚ) : (v.mul_s a).mul_s b = v.mul_s (a * b) := by
  cases v
  simp [Vec3.mul_s, mul_assoc]

lemma vec3_mul_s_one (v : Vec3) : v.mul_s 1 = v := by
  cases v
  simp [Vec3.mul_s]

lemma Vec3.zero_mul_s (a : ℚ) : Vec3.zero.mul_s a = Vec3.zero := by
  simp [Vec3.mul_s, Vec3.zero]

lemma Vec3.mul_s_neg_one_add_self (v : Vec3) : (v.mul_s (-1)).add_v v = Vec3.zero := by
  cases v
  simp [Vec3.mul_s, Vec3.add_v, Vec3.zero]

lemma Vec3.mul_s_add_neg (v : Vec3) (a : ℚ) :
    (Vec3.add_v (v.mul_s a) (v.mul_s (-a))) = Vec3.zero := by
  cases v
  simp [Vec3.mul_s, Vec3.add_v, Vec3.zero]

lemma point3_mul_s_one (p : Point3) : p.mul_s 1 = p := by
  cases p
  simp [Point3.mul_s]

lemma Point3.add_v_zero (p : Point3) : p.add_v Vec3.zero = p := by
  cases p
  simp [Point3.add_v, Vec3.zero]

lemma Point3.from_vec_to_vec (p : Point3) : Point3.from_vec p.to_vec = p := rfl

lemma Point3.to_vec_mul_s (p : Point3) (a : ℚ) : (p.mul_s a).to_vec = p.to_vec.mul_s a := rfl

lemma approx_eq_self (a : ℚ) : approx_eq a a = true := by
  simp [approx_eq, approx_epsilon]

lemma point3_approx_eq_self (p : Point3) : p.approx_eq p = true := by
  simp [Point3.approx_eq, cgmath.approx_eq_self]

lemma ne_zero_of_not_approx {s : ℚ} (h : ¬ (approx_eq s 0 = true)) : s ≠ 0 := by
  intro h0
  subst h0
  exact h (approx_eq_self 0)

lemma approx_eq_two_zero : approx_eq 2 0 = false := by
  simp [approx_eq, approx_epsilon]
  norm_num

lemma approx_eq_zero_zero : approx_eq 0 0 = true :=
  approx_eq_self 0

lemma Decomposed.transform_as_point_eq {R : Type} (ops : RotationOps R) (t : Decomposed R) (v : Vec3) :
    t.transform_as_point ops v = (ops.rotate_vec t.rot (v.mul_s t.scale)).add_v t.disp := rfl

lemma rotZ2_zero : ∀ b : Bool, rotZ2.rotate_vec b Vec3.zero = Vec3.zero := by decide

lemma rotZ2_mul_s (b : Bool) (v : Vec3) (a : ℚ) :
    rotZ2.rotate_vec b (v.mul_s a) = (rotZ2.rotate_vec b v).mul_s a := by
  cases b <;> cases v <;> simp [rotZ2, rotZ2Rot, Vec3.mul_s]

lemma rotZ2_inv1 (b : Bool) (v : Vec3) :
    rotZ2.rotate_vec b (rotZ2.rotate_vec (rotZ2.invert b) v) = v := by
  cases b <;> cases v <;> simp [rotZ2, rotZ2Rot]

lemma rotZ2_inv2 (b : Bool) (v : Vec3) :
    rotZ2.rotate_vec (rotZ2.invert b) (rotZ2.rotate_vec b v) = v := by
  cases b <;> cases v <;> simp [rotZ2, rotZ2Rot]

lemma rotZ2_concat (b b' : Bool) (v : Vec3) :
    rotZ2.rotate_vec (rotZ2.concat b b') v = rotZ2.rotate_vec b (rotZ2.rotate_vec b' v) := by
  cases b <;> cases b' <;> cases v <;> simp [rotZ2, rotZ2Rot]

lemma rotZ2_mat (b : Bool) (v : Vec3) :
    rotZ2.rotate_vec b v = (rotZ2.to_mat3 b).mul_v v := by
  cases b <;> cases v <;>
    simp [rotZ2, rotZ2Rot, rotZ2Mat, Mat3.mul_v, Vec3.mul_s, Vec3.add_v]

end cgmath

namespace claims

open cgmath

/-- C1: point/vector asymmetry — for the Decomposed representation,
transform_vec applies only the rotation and scale while transform_point
additionally adds the translation, so transform_point p =
rotate(scale * p) + translation; for the AffineMatrix3 representation,
transform_vec multiplies by the matrix after extending with a trailing
0; for both, the zero vector is sent to the zero vector regardless of
the transform's translation. -/
theorem C1_point_vector_asymmetry {R : Type} (ops : RotationOps R)
    (t : Decomposed R) (v : Vec3) (p : Point3) (a : AffineMatrix3)
    (hzero : ops.rotate_vec t.rot Vec3.zero = Vec3.zero) :
    t.transform_vec ops v = ops.rotate_vec t.rot (v.mul_s t.scale)
    ∧ t.transform_point ops p = (ops.rotate_point t.rot (p.mul_s t.scale)).add_v t.disp
    ∧ t.transform_vec ops Vec3.zero = Vec3.zero
    ∧ a.transform_vec v = (a.mat.mul_v (v.extend 0)).truncate
    ∧ a.transform_vec Vec3.zero = Vec3.zero := by
  refine ⟨rfl, rfl, ?_, rfl, ?_⟩
  · rw [Decomposed.transform_vec, Vec3.zero_mul_s, hzero]
  · obtain ⟨⟨⟨x1, x2, x3, x4⟩, ⟨y1, y2, y3, y4⟩, ⟨z1, z2, z3, z4⟩, ⟨w1, w2, w3, w4⟩⟩⟩ := a
    simp [AffineMatrix3.transform_vec, Mat4.mul_v, Vec4.mul_s, Vec4.add_v, Vec3.zero,
          Vec3.extend, Vec4.truncate]

/-- C1 witness: a concrete transform with nonzero translation sends the
zero vector to the zero vector. -/
theorem C1_witness :
    Decomposed.transform_vec rotZ2 ⟨2, true, ⟨1, 2, 3⟩⟩ Vec3.zero = Vec3.zero :=
  (C1_point_vector_asymmetry rotZ2 ⟨2, true, ⟨1, 2, 3⟩⟩ ⟨1, 0, 0⟩ ⟨0, 1, 0⟩
    ⟨Mat4.translate 5 6 7⟩ (rotZ2_zero true)).2.2.1

/-- C2: Decomposed invert returns none exactly when the scale is
approximately zero; otherwise it returns some of the closed-form
inverse with scale 1/scale, inverted rotation, and the inverted
rotation applied to the translation scaled by -(1/scale); in
particular the resulting scale is approximately 1/scale. -/
theorem C2_invert {R : Type} (ops : RotationOps R) (t : Decomposed R) :
    (approx_eq t.scale 0 = true → t.invert ops = none)
    ∧ (approx_eq t.scale 0 = false →
        t.invert ops =
          some ⟨1 / t.scale, ops.invert t.rot,
                (ops.rotate_vec (ops.invert t.rot) t.disp).mul_s (-(1 / t.scale))⟩
        ∧ ∀ u, t.invert ops = some u → approx_eq u.scale (1 / t.scale) = true) := by
  constructor
  · intro h
    simp [Decomposed.invert, h]
  · intro h
    have h1 : t.invert ops =
        some ⟨1 / t.scale, ops.invert t.rot,
              (ops.rotate_vec (ops.invert t.rot) t.disp).mul_s (-(1 / t.scale))⟩ := by
      simp [Decomposed.invert, h]
    refine ⟨h1, ?_⟩
    intro u hu
    rw [h1, Option.some.injEq] at hu
    rw [← hu]
    exact approx_eq_self _

/-- C2 witness: a concrete invertible transform and a concrete
non-invertible one. -/
theorem C2_witness :
    Decomposed.invert rotZ2 ⟨2, true, ⟨1, 2, 3⟩⟩ =
      some ⟨1 / 2, rotZ2.invert true, (rotZ2.rotate_vec (rotZ2.invert true) ⟨1, 2, 3⟩).mul_s (-(1 / 2))⟩
    ∧ Decomposed.invert rotZ2 ⟨0, true, ⟨1, 2, 3⟩⟩ = none :=
  ⟨((C2_invert rotZ2 ⟨2, true, ⟨1, 2, 3⟩⟩).2 approx_eq_two_zero).1,
   (C2_invert rotZ2 ⟨0, true, ⟨1, 2, 3⟩⟩).1 approx_eq_zero_zero⟩

/-- C3: Decomposed concat multiplies the scales, concatenates the
rotations, and takes as translation self applied-as-point to the
other's translation, i.e. the other's translation rotated and scaled by
self and then displaced by self's translation. -/
theorem C3_concat {R : Type} (ops : RotationOps R) (t other : Decomposed R) :
    t.concat ops other = { scale := t.scale * other.scale, rot := ops.concat t.rot other.rot,
                           disp := t.transform_as_point ops other.disp }
    ∧ t.transform_as_point ops other.disp =
        (ops.rotate_vec t.rot (other.disp.mul_s t.scale)).add_v t.disp :=
  ⟨rfl, rfl⟩

/-- C4: inverse round-trip — for a lawful rotation capability and any
Decomposed transform whose invert succeeds, concatenating with the
inverse on either side and applying the result to any point gives back
the point within epsilon. -/
theorem C4_invert_roundtrip {R : Type} (ops : RotationOps R)
    (hmul : ∀ r v a, ops.rotate_vec r (Vec3.mul_s v a) = Vec3.mul_s (ops.rotate_vec r v) a)
    (hinv1 : ∀ r v, ops.rotate_vec r (ops.rotate_vec (ops.invert r) v) = v)
    (hinv2 : ∀ r v, ops.rotate_vec (ops.invert r) (ops.rotate_vec r v) = v)
    (hconc : ∀ r r' v, ops.rotate_vec (ops.concat r r') v = ops.rotate_vec r (ops.rotate_vec r' v))
    (t ti : Decomposed R) (hti : t.invert ops = some ti) (p : Point3) :
    Point3.approx_eq ((t.concat ops ti).transform_point ops p) p = true
    ∧ Point3.approx_eq ((ti.concat ops t).transform_point ops p) p = true := by
  rw [Decomposed.invert] at hti
  split at hti
  · exact absurd hti (by simp)
  next hz =>
  have hs : t.scale ≠ 0 := ne_zero_of_not_approx hz
  simp only [Option.some.injEq] at hti
  subst hti
  have hone : t.scale * (1 / t.scale) = 1 := by field_simp
  have hone' : 1 / t.scale * t.scale = 1 := by field_simp
  have hneg : -(1 / t.scale) * t.scale = -1 := by field_simp
  constructor
  · have he : (t.concat ops
        ⟨1 / t.scale, ops.invert t.rot,
         (ops.rotate_vec (ops.invert t.rot) t.disp).mul_s (-(1 / t.scale))⟩).transform_point ops p
        = p := by
      simp only [Decomposed.concat, Decomposed.transform_point, Decomposed.transform_as_point_eq,
                 RotationOps.rotate_point, Point3.to_vec_mul_s, Vec3.mul_s_mul_s, hconc, hmul,
                 hinv1, hone, hneg, vec3_mul_s_one, Vec3.mul_s_neg_one_add_self,
                 Point3.from_vec_to_vec, Point3.add_v_zero]
    rw [he]
    exact point3_approx_eq_self p
  · have he : ((Decomposed.mk (1 / t.scale) (ops.invert t.rot)
        ((ops.rotate_vec (ops.invert t.rot) t.disp).mul_s (-(1 / t.scale)))).concat ops t).transform_point ops p
        = p := by
      simp only [Decomposed.concat, Decomposed.transform_point, Decomposed.transform_as_point_eq,
                 RotationOps.rotate_point, Point3.to_vec_mul_s, Vec3.mul_s_mul_s, hconc, hmul,
                 hinv2, hone', vec3_mul_s_one, Vec3.mul_s_add_neg,
                 Point3.from_vec_to_vec, Point3.add_v_zero]
    rw [he]
    exact point3_approx_eq_self p

/-- C4 witness: the round-trip at a concrete transform, inverse and
point. -/
theorem C4_witness :
    Point3.approx_eq
      ((Decomposed.concat rotZ2 ⟨2, true, ⟨1, 2, 3⟩⟩
          ⟨1 / 2, rotZ2.invert true, (rotZ2.rotate_vec (rotZ2.invert true) ⟨1, 2, 3⟩).mul_s (-(1 / 2))⟩).transform_point
        rotZ2 ⟨3, -1, 5⟩) ⟨3, -1, 5⟩ = true
    ∧ Point3.approx_eq
      ((Decomposed.concat rotZ2
          ⟨1 / 2, rotZ2.invert true, (rotZ2.rotate_vec (rotZ2.invert true) ⟨1, 2, 3⟩).mul_s (-(1 / 2))⟩
          ⟨2, true, ⟨1, 2, 3⟩⟩).transform_point rotZ2 ⟨3, -1, 5⟩) ⟨3, -1, 5⟩ = true :=
  C4_invert_roundtrip rotZ2 rotZ2_mul_s rotZ2_inv1 rotZ2_inv2 rotZ2_concat
    ⟨2, true, ⟨1, 2, 3⟩⟩
    ⟨1 / 2, rotZ2.invert true, (rotZ2.rotate_vec (rotZ2.invert true) ⟨1, 2, 3⟩).mul_s (-(1 / 2))⟩
    (by simp only [Decomposed.invert, approx_eq_two_zero, Bool.false_eq_true, if_false,
                   Option.some.injEq, Decomposed.mk.injEq]) ⟨3, -1, 5⟩

/-- C5: representation round-trip — converting a Decomposed transform
to its 4x4 homogeneous matrix (rotation's 3x3 matrix scaled uniformly,
extended to 4x4, translation column (disp, 1)) and applying it to a
point as an AffineMatrix3 gives, within epsilon, the same point as
applying the Decomposed transform directly. -/
theorem C5_matrix_roundtrip {R : Type} (ops : RotationOps R) (t : Decomposed R) (p : Point3)
    (hmat : ∀ v, ops.rotate_vec t.rot v = (ops.to_mat3 t.rot).mul_v v) :
    Point3.approx_eq ((AffineMatrix3.mk (t.to_mat4 ops)).transform_point p)
      (t.transform_point ops p) = true := by
  have he : (AffineMatrix3.mk (t.to_mat4 ops)).transform_point p = t.transform_point ops p := by
    obtain ⟨s, r, d⟩ := t
    simp only [AffineMatrix3.transform_point, Decomposed.transform_point, Decomposed.to_mat4,
               RotationOps.rotate_point, hmat]
    generalize ops.to_mat3 r = M
    obtain ⟨⟨a1, a2, a3⟩, ⟨b1, b2, b3⟩, ⟨c1, c2, c3⟩⟩ := M
    obtain ⟨dx, dy, dz⟩ := d
    obtain ⟨px, py, pz⟩ := p
    simp [Point3.to_homogeneous, Point3.from_homogeneous, Mat4.mul_v, Mat3.mul_v, Mat3.mul_s,
          Mat3.to_mat4, Vec3.extend, Vec4.truncate, Vec4.mul_s, Vec4.add_v, Vec3.mul_s,
          Vec3.add_v, Point3.mul_s, Point3.add_v, Point3.to_vec, Point3.from_vec,
          Point3.mk.injEq]
    refine ⟨by ring, by ring, by ring⟩
  rw [he]
  exact point3_approx_eq_self _

/-- C5 witness: the round-trip at a concrete non-identity transform and
point. -/
theorem C5_witness :
    Point3.approx_eq
      ((AffineMatrix3.mk (Decomposed.to_mat4 rotZ2 ⟨2, true, ⟨1, 2, 3⟩⟩)).transform_point ⟨3, -1, 5⟩)
      (Decomposed.transform_point rotZ2 ⟨2, true, ⟨1, 2, 3⟩⟩ ⟨3, -1, 5⟩) = true :=
  C5_matrix_roundtrip rotZ2 ⟨2, true, ⟨1, 2, 3⟩⟩ ⟨3, -1, 5⟩ (fun v => rotZ2_mat true v)

/-- C6: builder composition order — every builder step produces an
intermediate whose accumulated matrix is the step matrix times the
previous matrix, and consequently translate-then-scale and
scale-then-translate on a base transform with nonzero translation and
scale different from 1 accumulate different matrices. -/
theorem C6_builder_order {R : Type} (ops : RotationOps R) (i : Transform3DIntermediate R)
    (t : Transform3D R) (hd : t.get.disp ≠ Vec3.zero) (hs : t.get.scale ≠ 1) :
    i.translate.mat = (Mat4.translate i.decomposed.disp.x i.decomposed.disp.y i.decomposed.disp.z).mul_m i.mat
    ∧ i.scale.mat = (Mat4.scale i.decomposed.scale i.decomposed.scale i.decomposed.scale).mul_m i.mat
    ∧ (i.rotate ops).mat = ((ops.to_mat3 i.decomposed.rot).to_mat4).mul_m i.mat
    ∧ t.translate.scale.mat ≠ t.scale.translate.mat := by
  refine ⟨rfl, rfl, rfl, ?_⟩
  obtain ⟨⟨s, r, ⟨dx, dy, dz⟩⟩⟩ := t
  intro heq
  have hw := congrArg (fun m => Mat4.w m) heq
  simp only [Transform3D.translate, Transform3D.scale, Transform3DIntermediate.translate,
             Transform3DIntermediate.scale, Mat4.mul_m, Mat4.mul_v, Mat4.translate, Mat4.scale,
             Vec4.mul_s, Vec4.add_v, Vec4.mk.injEq, mul_zero, zero_mul, add_zero, zero_add,
             mul_one, one_mul] at hw
  obtain ⟨h1, h2, h3, -⟩ := hw
  have hsor : dx ≠ 0 ∨ dy ≠ 0 ∨ dz ≠ 0 := by
    by_contra hc
    push_neg at hc
    exact hd (by simp [Vec3.zero, hc.1, hc.2.1, hc.2.2])
  rcases hsor with h | h | h
  · exact hs (mul_right_cancel₀ h (h1.trans (one_mul dx).symm))
  · exact hs (mul_right_cancel₀ h (h2.trans (one_mul dy).symm))
  · exact hs (mul_right_cancel₀ h (h3.trans (one_mul dz).symm))

/-- C6 witness: with base scale 2 and translation (1,0,0), chaining
translate then scale accumulates a different matrix than scale then
translate. -/
theorem C6_witness :
    (Transform3D.mk (⟨2, true, ⟨1, 0, 0⟩⟩ : Decomposed Bool)).translate.scale.mat ≠
      (Transform3D.mk (⟨2, true, ⟨1, 0, 0⟩⟩ : Decomposed Bool)).scale.translate.mat :=
  (C6_builder_order rotZ2 ⟨Mat4.identity, ⟨2, true, ⟨1, 0, 0⟩⟩⟩ ⟨⟨2, true, ⟨1, 0, 0⟩⟩⟩
    (by decide) (by decide)).2.2.2

/-- C7: the mutating forms are sugar over the immutable ones —
concat_self replaces the value with concat, invert_self replaces the
value and reports true when invert succeeds, and keeps the value
unchanged and reports false when invert returns none. -/
theorem C7_in_place_forms {α : Type} (concat : α → α → α) (invert : α → Option α) (t other : α) :
    concat_self concat t other = concat t other
    ∧ (∀ u, invert t = some u → invert_self invert t = (true, u))
    ∧ (invert t = none → invert_self invert t = (false, t)) := by
  refine ⟨rfl, ?_, ?_⟩
  · intro u hu
    simp [invert_self, hu]
  · intro hn
    simp [invert_self, hn]

/-- C7 witness: invert_self on a non-invertible transform keeps it
unchanged and reports false; on an invertible one it stores the inverse
and reports true. -/
theorem C7_witness :
    invert_self (Decomposed.invert rotZ2) ⟨0, true, ⟨1, 2, 3⟩⟩ = (false, ⟨0, true, ⟨1, 2, 3⟩⟩)
    ∧ invert_self (Decomposed.invert rotZ2) ⟨2, true, ⟨1, 2, 3⟩⟩ =
        (true, ⟨1 / 2, rotZ2.invert true, (rotZ2.rotate_vec (rotZ2.invert true) ⟨1, 2, 3⟩).mul_s (-(1 / 2))⟩) :=
  ⟨(C7_in_place_forms (Decomposed.concat rotZ2) (Decomposed.invert rotZ2)
      ⟨0, true, ⟨1, 2, 3⟩⟩ ⟨0, true, ⟨1, 2, 3⟩⟩).2.2
      (by simp [Decomposed.invert, approx_eq_zero_zero]),
   (C7_in_place_forms (Decomposed.concat rotZ2) (Decomposed.invert rotZ2)
      ⟨2, true, ⟨1, 2, 3⟩⟩ ⟨2, true, ⟨1, 2, 3⟩⟩).2.1 _
      (by simp only [Decomposed.invert, approx_eq_two_zero, Bool.false_eq_true, if_false,
                     Option.some.injEq, Decomposed.mk.injEq])⟩

/-- C8: degenerate direction — direction always normalizes the
displacement (other - self) with no guard or special case, and ray_to
uses direction for the ray's direction; at coincident points, with the
floating scalar, the zero-length displacement is normalized into a NaN
vector rather than an error or a substituted default. -/
theorem C8_degenerate_direction {T : Type} (n : math.NumOps T) (sq : T → T)
    (p q : math.Point2 T) (p3 q3 : math.Point3 T)
    (fsq : math.FP → math.FP) (h0 : fsq (math.FP.num 0) = math.FP.num 0) (a b c : ℚ) :
    p.direction n sq q = (q.sub n p).normalize n sq
    ∧ p.ray_to n sq q = ⟨p, p.direction n sq q⟩
    ∧ p3.direction n sq q3 = (q3.sub n p3).normalize n sq
    ∧ p3.ray_to n sq q3 = ⟨p3, p3.direction n sq q3⟩
    ∧ math.Point2.direction math.FPnum fsq ⟨.num a, .num b⟩ ⟨.num a, .num b⟩ = ⟨.nan, .nan⟩
    ∧ math.Point3.direction math.FPnum fsq ⟨.num a, .num b, .num c⟩ ⟨.num a, .num b, .num c⟩ =
        ⟨.nan, .nan, .nan⟩ := by
  refine ⟨rfl, rfl, rfl, rfl, ?_, ?_⟩
  · simp [math.Point2.direction, math.Point2.sub, math.Vec2.normalize, math.Vec2.magnitude,
          math.Vec2.magnitude2, math.Vec2.mul_s, math.FPnum, math.FP.sub, math.FP.add,
          math.FP.mul, math.FP.div, sub_self, mul_zero, add_zero, h0]
  · simp [math.Point3.direction, math.Point3.sub, math.Vec3.normalize, math.Vec3.magnitude,
          math.Vec3.magnitude2, math.Vec3.mul_s, math.FPnum, math.FP.sub, math.FP.add,
          math.FP.mul, math.FP.div, sub_self, mul_zero, add_zero, h0]

/-- C8 witness: the direction between coincident concrete points is the
NaN vector. -/
theorem C8_witness :
    math.Point2.direction math.FPnum (fun x => x)
      ⟨math.FP.num 1, math.FP.num 2⟩ ⟨math.FP.num 1, math.FP.num 2⟩ =
        ⟨math.FP.nan, math.FP.nan⟩
    ∧ math.Point3.direction math.FPnum (fun x => x)
      ⟨math.FP.num 1, math.FP.num 2, math.FP.num 3⟩ ⟨math.FP.num 1, math.FP.num 2, math.FP.num 3⟩ =
        ⟨math.FP.nan, math.FP.nan, math.FP.nan⟩ :=
  ⟨(C8_degenerate_direction math.FPnum (fun x => x)
      ⟨math.FP.num 1, math.FP.num 2⟩ ⟨math.FP.num 1, math.FP.num 2⟩
      ⟨math.FP.num 1, math.FP.num 2, math.FP.num 3⟩ ⟨math.FP.num 1, math.FP.num 2, math.FP.num 3⟩
      (fun x => x) rfl 1 2 3).2.2.2.2.1,
   (C8_degenerate_direction math.FPnum (fun x => x)
      ⟨math.FP.num 1, math.FP.num 2⟩ ⟨math.FP.num 1, math.FP.num 2⟩
      ⟨math.FP.num 1, math.FP.num 2, math.FP.num 3⟩ ⟨math.FP.num 1, math.FP.num 2, math.FP.num 3⟩
      (fun x => x) rfl 1 2 3).2.2.2.2.2⟩

/-- C9 counterexample: at a concrete transform whose formatted scale is
"2", rotation is "q" and displacement is "[1, 0, 0]", the string form
is not "(scale(2), rot(q), disp([1, 0, 0]))" — the displacement is not
wrapped in parentheses after disp. -/
theorem C9_counterexample :
    Decomposed.to_str (fun _ => "2") (fun _ : Bool => "q") (fun _ => "[1, 0, 0]")
      ⟨2, true, ⟨1, 0, 0⟩⟩ ≠ "(scale(2), rot(q), disp([1, 0, 0]))" := by
  decide

/-- C9 (amended): the string form of a point is [x, y] (2D) or
[x, y, z] (3D); the string form of a Decomposed transform is
(scale(s), rot(r), dispd) where the formatted displacement d directly
follows disp with no parentheses around it. -/
theorem C9_format {R T : Type} (fmtS : ℚ → String) (fmtR : R → String)
    (fmtV : Vec3 → String) (t : Decomposed R) (fmtT : T → String)
    (p2 : math.Point2 T) (p3 : math.Point3 T) :
    p2.to_str fmtT = "[" ++ fmtT p2.x ++ ", " ++ fmtT p2.y ++ "]"
    ∧ p3.to_str fmtT = "[" ++ fmtT p3.x ++ ", " ++ fmtT p3.y ++ ", " ++ fmtT p3.z ++ "]"
    ∧ t.to_str fmtS fmtR fmtV =
        "(scale(" ++ fmtS t.scale ++ "), rot(" ++ fmtR t.rot ++ "), disp" ++ fmtV t.disp ++ ")" :=
  ⟨rfl, rfl, rfl⟩

/-- C10: Point2 rotate_z returns (cos(x) * radians, sin(y) * radians);
for a scalar capability with cos 0 = 1 and sin 0 = 0, rotating the
origin yields (radians, 0), which differs from the origin whenever the
angle is nonzero. -/
theorem C10_rotate_z {T : Type} (n : math.NumOps T) (cosf sinf : T → T)
    (p : math.Point2 T) (r : T)
    (hc : cosf n.zero = n.one) (hsn : sinf n.zero = n.zero)
    (h1 : n.mul n.one r = r) (h0 : n.mul n.zero r = n.zero) (hr : r ≠ n.zero) :
    p.rotate_z n cosf sinf r = ⟨n.mul (cosf p.x) r, n.mul (sinf p.y) r⟩
    ∧ (math.Point2.origin n).rotate_z n cosf sinf r = ⟨r, n.zero⟩
    ∧ (math.Point2.origin n).rotate_z n cosf sinf r ≠ math.Point2.origin n := by
  refine ⟨rfl, ?_, ?_⟩
  · simp [math.Point2.rotate_z, math.Point2.origin, hc, hsn, h1, h0]
  · intro he
    have hx := congrArg math.Point2.x he
    simp [math.Point2.rotate_z, math.Point2.origin, hc, h1] at hx
    exact hr hx

/-- C10 witness: with the rational scalar and small-angle stand-ins for
cos and sin that agree with them at 0, rotating the origin by 5 yields
(5, 0), not the origin. -/
theorem C10_witness :
    math.Point2.rotate_z math.ratNum (fun q => 1 - q ^ 2 / 2) (fun q => q)
      (math.Point2.origin math.ratNum) 5 = ⟨5, 0⟩
    ∧ math.Point2.rotate_z math.ratNum (fun q => 1 - q ^ 2 / 2) (fun q => q)
      (math.Point2.origin math.ratNum) 5 ≠ math.Point2.origin math.ratNum :=
  ⟨(C10_rotate_z math.ratNum (fun q => 1 - q ^ 2 / 2) (fun q => q)
      (math.Point2.origin math.ratNum) 5 (by norm_num [math.ratNum]) rfl
      (by norm_num [math.ratNum]) (by norm_num [math.ratNum]) (by norm_num [math.ratNum])).2.1,
   (C10_rotate_z math.ratNum (fun q => 1 - q ^ 2 / 2) (fun q => q)
      (math.Point2.origin math.ratNum) 5 (by norm_num [math.ratNum]) rfl
      (by norm_num [math.ratNum]) (by norm_num [math.ratNum]) (by norm_num [math.ratNum])).2.2⟩

end claims

